import Mathlib

/-!
# Verification of the continuous tour-operator website analyzer

A shallow embedding of `continuous_analyzer.py` (class
`ContinuousTourOperatorAnalyzer`): the page-content signal extractor with its
three detection tiers, the prospect classifier, the multi-page site crawler,
the batch processor and the three-phase retry scheduler, together with proofs
of the specified properties.

Conventions of the embedding:
* Python strings are Lean `String`s (`in` is substring containment,
  `lower()` is `lowerStr`, `strip()` is `trimStr` — written over character
  lists so every definition evaluates inside the kernel).
* The regular expressions used by the behavioral detectors are translated
  token-for-token into the `RTok` pattern language below, whose matcher
  implements the Python leftmost, greedy-with-backtracking, case-insensitive
  (`re.IGNORECASE`) semantics for exactly the constructs those patterns use.
* `pandas` missing values (`pd.NA` / `NaN`) are `Option.none`.
* Python `set`s that are converted back to lists are modelled as
  insertion-ordered duplicate-free lists.
-/

namespace TourAnalyzer

/-! ## Special characters of the patterns, built from their code points -/

/-- The double-quote character. -/
def qc : Char := Char.ofNat 34

/-- The single-quote character. -/
def sq : Char := Char.ofNat 39

/-- The single-quote character as a string. -/
def sqs : String := String.mk [sq]

/-- The opening-brace character. -/
def obr : Char := Char.ofNat 123

/-- The newline character (which Python `.` does not match). -/
def nlc : Char := Char.ofNat 10

/-! ## Basic string helpers mirroring the Python primitives -/

/-- Embedding of `str.lower()` (ASCII, as all patterns are ASCII), built on the
character list so the kernel can evaluate it. -/
def lowerStr (s : String) : String := String.mk (s.toList.map Char.toLower)

/-- Embedding of `str.strip()`: drop leading and trailing whitespace. -/
def trimStr (s : String) : String :=
  String.mk (((s.toList.dropWhile Char.isWhitespace).reverse.dropWhile
    Char.isWhitespace).reverse)

/-- Python `s.startswith(pre)`. -/
def startsWithStr (pre s : String) : Bool := pre.toList.isPrefixOf s.toList

/-- Python `s.endswith(suf)`. -/
def endsWithStr (suf s : String) : Bool :=
  suf.toList.reverse.isPrefixOf s.toList.reverse

/-- Case-insensitive character equality (for `re.IGNORECASE`). -/
def ciEq (a b : Char) : Bool := a.toLower == b.toLower

/-- Case-insensitive test that `p` begins the character list `s`. -/
def ciHeads : List Char → List Char → Bool
  | [], _ => true
  | _ :: _, [] => false
  | p :: ps, c :: cs => ciEq p c && ciHeads ps cs

/-- The Python `needle in hay` on strings, as exact substring containment
over character lists (the analyzer always lowercases both sides first). -/
def containsSub (hay needle : List Char) : Bool :=
  needle.isPrefixOf hay ||
    match hay with
    | [] => false
    | _ :: t => containsSub t needle

/-- Version of `needle in hay` for `String`s. -/
def strIn (needle hay : String) : Bool := containsSub hay.toList needle.toList

/-- Python `item.split` at underscores, first element: the characters
before the first underscore. -/
def beforeUnderscore (s : String) : String :=
  String.mk (s.toList.takeWhile (fun c => c ≠ '_'))

/-- The Python `str.rstrip` with a slash argument: drop every trailing slash. -/
def rstripSlash (s : String) : String :=
  String.mk ((s.toList.reverse.dropWhile (fun c => c == '/')).reverse)

/-- The characters after the first `://`, when present. -/
def afterSchemeSep : List Char → Option (List Char)
  | [] => none
  | c :: t =>
      if [':', '/', '/'].isPrefixOf (c :: t) then some (t.drop 2)
      else afterSchemeSep t

/-- Embedding of `urllib.parse.urlparse(url).netloc` for the scheme-bearing URLs the
analyzer manipulates: the text between `://` and the next `/`, `?` or `#`
(empty when the URL carries no scheme). -/
def netlocOf (url : String) : String :=
  match afterSchemeSep url.toList with
  | some rest =>
      String.mk (rest.takeWhile (fun c => c ≠ '/' && c ≠ '?' && c ≠ '#'))
  | none => ""

/-! ## A tiny regex engine for the fixed patterns of the analyzer

The behavioral detectors use `re.findall` / `re.search` with `re.IGNORECASE`
over a closed set of constructs: literal characters, `X?` on one literal,
`[^c]*` single-character negated classes, `\s*`, `.*` (no newline), one
literal negative lookahead `(?!domain)` and one four-way literal alternation
`(?:book|reserv|ticket|buy)`.  `RTok` is that pattern language. -/

inductive RTok where
  /-- one literal character (compared case-insensitively) -/
  | lit (c : Char)
  /-- Token for `c?`, greedy -/
  | opt (c : Char)
  /-- a starred single-character class `[^c]*`, `\s*` or `.*`, greedy -/
  | star (p : Char → Bool)
  /-- Token for `(?!w)`: fail when `w` comes next (case-insensitive) -/
  | nla (w : List Char)
  /-- Token for `(?:a|b|c|d)` over four literal words -/
  | alt4 (a b c d : List Char)

/-- A literal word as a token sequence. -/
def litToks (w : List Char) : List RTok := w.map RTok.lit

/-- Match the token list at the start of `s`, returning the unmatched
remainder of the longest (Python-greedy, backtracking) match.  The
branches of an alternation are literal words, so each branch deterministically
consumes its word and then continues with the remaining tokens — exactly the
backtracking regex behavior.  Structural recursion on `fuel`: every
recursive call strictly decreases `ts.length + s.length`, so the
`ts.length + s.length + 1` fuel `matchToks` supplies can never run out and
the `fuel = 0` branch is unreachable. -/
def matchToksF : Nat → List RTok → List Char → Option (List Char)
  | 0, _, _ => none
  | _ + 1, [], s => some s
  | _ + 1, .lit _ :: _, [] => none
  | fuel + 1, .lit c :: ts, d :: s => if ciEq c d then matchToksF fuel ts s else none
  | fuel + 1, .opt _ :: ts, [] => matchToksF fuel ts []
  | fuel + 1, .opt c :: ts, d :: s =>
      if ciEq c d then
        match matchToksF fuel ts s with
        | some r => some r
        | none => matchToksF fuel ts (d :: s)
      else matchToksF fuel ts (d :: s)
  | fuel + 1, .star _ :: ts, [] => matchToksF fuel ts []
  | fuel + 1, .star p :: ts, d :: s =>
      if p d then
        match matchToksF fuel (.star p :: ts) s with
        | some r => some r
        | none => matchToksF fuel ts (d :: s)
      else matchToksF fuel ts (d :: s)
  | fuel + 1, .nla w :: ts, s => if ciHeads w s then none else matchToksF fuel ts s
  | fuel + 1, .alt4 a b c d :: ts, s =>
      match (if ciHeads a s then matchToksF fuel ts (s.drop a.length) else none) with
      | some r => some r
      | none =>
        match (if ciHeads b s then matchToksF fuel ts (s.drop b.length) else none) with
        | some r => some r
        | none =>
          match (if ciHeads c s then matchToksF fuel ts (s.drop c.length) else none) with
          | some r => some r
          | none => if ciHeads d s then matchToksF fuel ts (s.drop d.length) else none

/-- Wrapper supplying `matchToksF` with its always-sufficient fuel. -/
def matchToks (ts : List RTok) (s : List Char) : Option (List Char) :=
  matchToksF (ts.length + s.length + 1) ts s

/-- Embedding of `len(re.findall(pattern, s))`: scan left to right, counting
non-overlapping matches; the scan resumes at the end of each match (advancing
by one character after an empty match, as Python does).  Structural recursion
on `fuel`: every recursive call strictly shrinks `s`, so the `s.length + 1`
fuel `findallCount` supplies can never run out. -/
def findallCountF : Nat → List RTok → List Char → Nat
  | 0, _, _ => 0
  | _ + 1, ts, [] => if (matchToks ts []).isSome then 1 else 0
  | fuel + 1, ts, d :: s =>
      match matchToks ts (d :: s) with
      | some rest =>
          if rest.length < (d :: s).length then 1 + findallCountF fuel ts rest
          else 1 + findallCountF fuel ts s
      | none => findallCountF fuel ts s

/-- Wrapper supplying `findallCountF` with its always-sufficient fuel. -/
def findallCount (ts : List RTok) (s : List Char) : Nat :=
  findallCountF (s.length + 1) ts s

/-- Embedding of `re.search(pattern, s) is not None`. -/
def reSearch (ts : List RTok) : List Char → Bool
  | [] => (matchToks ts []).isSome
  | d :: s => (matchToks ts (d :: s)).isSome || reSearch ts s

/-! ## Static pattern tables (`__init__`, `continuous_analyzer.py` 71-125) -/

/-- Embedding of `self.chatbot_patterns`. -/
def chatbotPatterns : List (String × List String) :=
  [("intercom", ["intercom", "widget.intercom.io"]),
   ("zendesk", ["zendesk", "zopim", "zdchat"]),
   ("drift", ["drift.com", "js.driftt.com"]),
   ("tidio", ["tidio", "code.tidio.co"]),
   ("tawk", ["tawk.to", "embed.tawk.to"]),
   ("livechat", ["livechatinc", "cdn.livechatinc.com"]),
   ("crisp", ["crisp.chat", "client.crisp.chat"]),
   ("hubspot", ["hubspot", "js.hs-analytics.net"]),
   ("freshchat", ["freshchat", "wchat.freshchat.com"]),
   ("olark", ["olark.com", "static.olark.com"]),
   ("smartsupp", ["smartsupp.com"]),
   ("chatlio", ["chatlio.com"]),
   ("pure_chat", ["purechat.com"]),
   ("chat_widget", ["chat-widget", "chatwidget", "chat_widget"]),
   ("messenger", ["messenger", "connect.facebook.net"])]

/-- Embedding of `self.booking_patterns`. -/
def bookingPatterns : List (String × List String) :=
  [("fareharbor", ["fareharbor.com", "fareharbor", "fh-button", "fh-widget"]),
   ("resd", ["resd.com", "res-d.com", "resd-booking"]),
   ("woocommerce", ["woocommerce", "wc-", "wp-content/plugins/woocommerce"]),
   ("shopify", ["shopify", "cdn.shopify.com", "shop.app"]),
   ("bookeo", ["bookeo.com", "bookeo"]),
   ("checkfront", ["checkfront.com", "checkfront"]),
   ("peek", ["peek.com", "bookwithpeek"]),
   ("rezdy", ["rezdy.com", "rezdy"]),
   ("regiondo", ["regiondo.com", "regiondo"]),
   ("trekksoft", ["trekksoft.com", "trekksoft"]),
   ("bokun", ["bokun.io", "bokun.com"]),
   ("viator", ["viator.com", "viator"]),
   ("stripe", ["stripe.com", "js.stripe.com"]),
   ("square", ["squareup.com", "square"]),
   ("paypal", ["paypal.com", "paypal"]),
   ("book_now", ["book-now", "booknow", "reservation"]),
   ("calendar_booking", ["calendly.com", "acuityscheduling"])]

/-- Embedding of `self.ota_patterns`. -/
def otaPatterns : List (String × List String) :=
  [("getyourguide", ["getyourguide.com", "getyourguide"]),
   ("viator", ["viator.com", "tripadvisor"]),
   ("tripadvisor", ["tripadvisor.com", "tripadvisor"]),
   ("expedia", ["expedia.com", "expedia"]),
   ("airbnb", ["airbnb.com", "airbnb"]),
   ("booking", ["booking.com", "booking"]),
   ("klook", ["klook.com", "klook"]),
   ("tiqets", ["tiqets.com", "tiqets"]),
   ("headout", ["headout.com", "headout"]),
   ("musement", ["musement.com", "musement"]),
   ("citypass", ["citypass.com", "citypass"]),
   ("gocity", ["gocity.com", "smartdestinations"]),
   ("isango", ["isango.com", "isango"]),
   ("attractiontix", ["attractiontix.com"]),
   ("veltra", ["veltra.com", "veltra"])]

/-! ## Behavioral detectors (`continuous_analyzer.py` 254-377) -/

/-- Token for `[^c]*`. -/
def clsNot (c : Char) : RTok := .star (fun d => d != c)

/-- Token for `\s*`. -/
def wsStar : RTok := .star (fun d => d.isWhitespace)

/-- Token for `.*` (any character except newline). -/
def anyStar : RTok := .star (fun d => d != nlc)

/-- Pattern shape `A"[^"]*MID[^"]*"` (quoted-attribute indicators). -/
def attrQPat (a mid : String) : List RTok :=
  litToks a.toList ++ [RTok.lit qc, clsNot qc] ++ litToks mid.toList ++ [clsNot qc, RTok.lit qc]

/-- Pattern shape `A[^>]*MID[^>]*B` (tag-structure indicators). -/
def tagPat (a mid b : String) : List RTok :=
  litToks a.toList ++ [clsNot '>'] ++ litToks mid.toList ++ [clsNot '>'] ++ litToks b.toList

/-- Embedding of `chat_ui_indicators` (the fifteen regexes of `_detect_unknown_chatbot`). -/
def chatUiIndicators : List (List RTok) :=
  [attrQPat "class=" "chat", attrQPat "class=" "message",
   attrQPat "class=" "widget", attrQPat "class=" "bubble",
   attrQPat "id=" "chat", attrQPat "id=" "message",
   tagPat "<div" "chat" ">", tagPat "<iframe" "chat" ">",
   litToks "data-".toList ++ [clsNot '='] ++ litToks "chat".toList ++ [clsNot '=', RTok.lit '='],
   attrQPat "aria-label=" "chat",
   litToks "function".toList ++ [clsNot obr] ++ litToks "chat".toList ++ [clsNot obr, RTok.lit obr],
   [RTok.lit '.'] ++ litToks "chat".toList ++ [wsStar, RTok.lit '('],
   litToks "chat".toList ++ [wsStar, RTok.lit ':'],
   litToks "chatbot".toList,
   litToks "livechat".toList]

/-- Embedding of `chat_text_indicators`. -/
def chatTextIndicators : List String :=
  ["start chat", "chat with us", "live chat", "chat now",
   "send message", "type your message", "chat support",
   "online support", "ask us anything", "need help?",
   "how can we help", "chat bubble", "minimize chat"]

/-- Result of `_detect_unknown_chatbot`. -/
structure ChatbotEvidence where
  likelyChatbot : Bool
  confidenceScore : Nat
  evidence : List String
  deriving DecidableEq, Repr

/-- Embedding of `_detect_unknown_chatbot`: weighted scoring over the UI regexes
(+count per firing pattern) and the text indicators (+2 each); positive at
score ≥ 5, with the evidence strings reported only past the threshold. -/
def detectUnknownChatbot (htmlContent pageText : String) : ChatbotEvidence :=
  let step1 := chatUiIndicators.foldl
    (fun acc pat =>
      let n := findallCount pat htmlContent.toList
      if n > 0 then
        (acc.1 + n, acc.2 ++ ["chat_ui_elements (" ++ toString n ++ " found)"])
      else acc)
    ((0 : Nat), ([] : List String))
  let step2 := chatTextIndicators.foldl
    (fun acc ind =>
      if strIn ind (lowerStr pageText) then
        (acc.1 + 2, acc.2 ++ ["chat_text: " ++ sqs ++ ind ++ sqs])
      else acc)
    step1
  { likelyChatbot := step2.1 ≥ 5, confidenceScore := step2.1,
    evidence := if step2.1 ≥ 5 then step2.2 else [] }

/-- Embedding of `booking_form_patterns` of `_detect_unknown_booking_system`. -/
def bookingFormPatterns : List (List RTok) :=
  [tagPat "<form" "book" ">", tagPat "<form" "reserv" ">",
   tagPat "<form" "ticket" ">", tagPat "input" "date" "",
   tagPat "select" "guest" ">", tagPat "select" "person" ">",
   tagPat "input" "quantity" ">", tagPat "button" "book" ">"]

/-- Embedding of `calendar_patterns`. -/
def calendarPatterns : List String :=
  ["datepicker", "calendar-widget", "date-selector",
   "flatpickr", "pikaday", "datejs", "moment.js"]

/-- Embedding of `payment_patterns`. -/
def paymentPatterns : List String :=
  ["payment-form", "credit-card", "card-number",
   "billing-address", "cvv", "expiry"]

/-- Embedding of `_detect_unknown_booking_system` (its `page_text` argument is unused in
the source as well). -/
def detectUnknownBookingSystem (htmlContent _pageText : String) : List String :=
  let formMatches := (bookingFormPatterns.filter
    (fun p => reSearch p htmlContent.toList)).length
  let systems := if formMatches ≥ 3 then ["custom_booking_form"] else []
  let systems := if calendarPatterns.any (fun p => strIn p (lowerStr htmlContent)) then
      systems ++ ["calendar_booking_widget"] else systems
  if paymentPatterns.any (fun p => strIn p (lowerStr htmlContent)) then
    systems ++ ["integrated_payment_system"] else systems

/-- Embedding of `href="https?://(?!domain).*KW` (the external-booking-link regexes of
`_detect_unknown_ota_integration`). -/
def externalBookingPat (domain : List Char) (kw : String) : List RTok :=
  litToks "href=".toList ++ [RTok.lit qc] ++ litToks "http".toList ++
    [RTok.opt 's'] ++ litToks "://".toList ++ [RTok.nla domain, anyStar] ++
    litToks kw.toList

/-- Embedding of `_detect_unknown_ota_integration`: ≥ 2 external (different-domain)
booking-like hrefs yield the `external_booking_redirects` tag. -/
def detectUnknownOtaIntegration (htmlContent _pageText pageUrl : String) :
    List String :=
  let domain := (netlocOf pageUrl).toList
  let total := (["book", "reserv", "ticket"].map
    (fun kw => findallCount (externalBookingPat domain kw) htmlContent.toList)).sum
  if total ≥ 2 then ["external_booking_redirects"] else []

/-- Embedding of `_has_chat_ui_elements`. -/
def hasChatUiElements (htmlContent : String) : Bool :=
  ["chat-widget", "chat-bubble", "chat-button",
   "message-input", "chat-container", "live-chat"].any
    (fun sel => strIn sel (lowerStr htmlContent))

/-- Embedding of `_has_booking_widgets`. -/
def hasBookingWidgetMarkers (htmlContent : String) : Bool :=
  ["booking-widget", "reservation-form", "book-now",
   "date-picker", "guest-selector", "booking-calendar"].any
    (fun sel => strIn sel (lowerStr htmlContent))

/-- Embedding of `href="(https?://(?!domain)[^"]*(?:book|reserv|ticket|buy)[^"]*)"` of
`_count_external_booking_links`. -/
def extBookingLinkPat (domain : List Char) : List RTok :=
  litToks "href=".toList ++ [RTok.lit qc] ++ litToks "http".toList ++
    [RTok.opt 's'] ++ litToks "://".toList ++
    [RTok.nla domain, clsNot qc,
     RTok.alt4 "book".toList "reserv".toList "ticket".toList "buy".toList,
     clsNot qc, RTok.lit qc]

/-- Embedding of `_count_external_booking_links`. -/
def countExternalBookingLinks (htmlContent pageUrl : String) : Nat :=
  findallCount (extBookingLinkPat (netlocOf pageUrl).toList) htmlContent.toList

/-! ## The page-content signal extractor (`analyze_page_content`, 185-252) -/

/-- The per-page detection output (`results` of `analyze_page_content`). -/
structure AnalysisDetails where
  hasOnlineBooking : Bool := false
  hasContactForm : Bool := false
  mentionsCommission : Bool := false
  hasLiveChatUi : Bool := false
  hasBookingWidgets : Bool := false
  externalBookingLinks : Nat := 0
  deriving DecidableEq, Repr

/-- A page's detection result (an `AnalysisResult` minus the aggregation
fields: the `PageSignals` of the spec). -/
structure PageSignals where
  hasChatbot : Bool
  chatbotTypes : List String
  bookingTechnology : List String
  otaDependencies : List String
  details : AnalysisDetails
  deriving DecidableEq, Repr

/-- Which detection tiers run.  `analyze_page_content` as written runs all of
them (`TierConfig.all`); switching a flag off skips exactly the block of that tier,
which is how the counterfactual "enabling an additional tier" of the spec is
expressed. -/
structure TierConfig where
  knownChatbot : Bool
  behavioralChatbot : Bool
  knownBooking : Bool
  behavioralBooking : Bool
  knownOta : Bool
  behavioralOta : Bool
  deriving DecidableEq, Repr

/-- All tiers enabled — the configuration the source actually runs. -/
def TierConfig.all : TierConfig := ⟨true, true, true, true, true, true⟩

/-- Pointwise implication of enabled tiers. -/
def TierConfig.below (c c' : TierConfig) : Bool :=
  (!c.knownChatbot || c'.knownChatbot) && (!c.behavioralChatbot || c'.behavioralChatbot) &&
  (!c.knownBooking || c'.knownBooking) && (!c.behavioralBooking || c'.behavioralBooking) &&
  (!c.knownOta || c'.knownOta) && (!c.behavioralOta || c'.behavioralOta)

/-- The known-signature chatbot tier: first matching keyword per provider
sets the flag and records the provider tag (step 1 of
`analyze_page_content`). -/
def knownChatbotScan (combined : List Char) : Bool × List String :=
  chatbotPatterns.foldl
    (fun acc e =>
      if e.2.any (fun p => containsSub combined p.toList) then
        (true, if acc.2.contains e.1 then acc.2 else acc.2 ++ [e.1])
      else acc)
    (false, [])

/-- The known-signature tier for booking/OTA tables (steps 3 and 5 of
`analyze_page_content`). -/
def knownTierScan (table : List (String × List String)) (combined : List Char) :
    List String :=
  table.foldl
    (fun acc e =>
      if e.2.any (fun p => containsSub combined p.toList) then
        (if acc.contains e.1 then acc else acc ++ [e.1])
      else acc)
    []

/-- Embedding of `has_online_booking` keyword list. -/
def onlineBookingKeywords : List String :=
  ["book online", "book now", "reserve now", "buy tickets", "purchase"]

/-- Embedding of `has_contact_form` keyword list. -/
def contactFormKeywords : List String :=
  ["contact form", "contact us", "get in touch", "enquiry"]

/-- Embedding of `mentions_commission` keyword list. -/
def commissionKeywords : List String :=
  ["commission", "booking fee", "service fee"]

/-- The lower-cased combined content `html_lower + " " + text_lower` that
every known-signature tier scans. -/
def combinedOf (htmlContent pageText : String) : List Char :=
  (lowerStr htmlContent ++ " " ++ lowerStr pageText).toList

/-- Embedding of `analyze_page_content`, with each of the six detection blocks guarded by
its `TierConfig` flag (all flags true reproduces the source line for line).
The behavioral chatbot tier runs only when the known tier found nothing
(the source guard: if not results has_chatbot). -/
def analyzePageContentCfg (cfg : TierConfig) (htmlContent pageText pageUrl : String) :
    PageSignals :=
  let combined := combinedOf htmlContent pageText
  let known := if cfg.knownChatbot then knownChatbotScan combined else (false, [])
  let chat :=
    if cfg.behavioralChatbot && !known.1 then
      let ind := detectUnknownChatbot htmlContent pageText
      if ind.likelyChatbot then (true, known.2 ++ ind.evidence) else known
    else known
  { hasChatbot := chat.1,
    chatbotTypes := chat.2,
    bookingTechnology :=
      (if cfg.knownBooking then knownTierScan bookingPatterns combined else []) ++
      (if cfg.behavioralBooking then detectUnknownBookingSystem htmlContent pageText else []),
    otaDependencies :=
      (if cfg.knownOta then knownTierScan otaPatterns combined else []) ++
      (if cfg.behavioralOta then detectUnknownOtaIntegration htmlContent pageText pageUrl else []),
    details :=
      { hasOnlineBooking := onlineBookingKeywords.any (fun k => containsSub combined k.toList),
        hasContactForm := contactFormKeywords.any (fun k => containsSub combined k.toList),
        mentionsCommission := commissionKeywords.any (fun k => containsSub combined k.toList),
        hasLiveChatUi := hasChatUiElements htmlContent,
        hasBookingWidgets := hasBookingWidgetMarkers htmlContent,
        externalBookingLinks := countExternalBookingLinks htmlContent pageUrl } }

/-- Embedding of `analyze_page_content` as the source runs it: every tier enabled. -/
def analyzePageContent (htmlContent pageText pageUrl : String) : PageSignals :=
  analyzePageContentCfg TierConfig.all htmlContent pageText pageUrl

/-! ## Prospect classifier (`_generate_prospect_evaluation`, 379-395) -/

/-- The aggregated per-site result (`all_results` of `analyze_website` after
its sets are converted back to lists): the `AnalysisResult` of the spec.  On
the error path the empty analysis-details dict is the all-default `AnalysisDetails`
(every `.get` on the empty dict is falsy, exactly as the defaults are). -/
structure AnalysisResult where
  hasChatbot : Bool
  chatbotTypes : List String
  bookingTechnology : List String
  otaDependencies : List String
  details : AnalysisDetails
  pagesAnalyzed : Nat
  deriving DecidableEq, Repr

/-- Embedding of `_generate_prospect_evaluation`: Python truthiness of the lists is
non-emptiness. -/
def generateProspectEvaluation (analysis : AnalysisResult) : String :=
  if !analysis.hasChatbot then
    if !analysis.bookingTechnology.isEmpty || analysis.details.hasOnlineBooking then
      if !analysis.otaDependencies.isEmpty then "HIGH-VALUE PROSPECT"
      else "GOOD PROSPECT"
    else "MEDIUM PROSPECT"
  else "NOT A PROSPECT"

/-! ## Site crawler (`analyze_page` / `analyze_website`, 436-638)

The headless browser is the abstract collaborator: navigation outcomes,
nav-menu hrefs, the dynamic-widget verdict of `_detect_dynamic_elements`
(live DOM queries) and the resource-timing URL list are all environment
inputs. -/

/-- The rendered HTML and visible text of a successful navigation. -/
structure FetchResult where
  html : String
  text : String

/-- The abstract browser/page environment one site crawl runs against.
`fetch url = none` is a navigation/timeout error (`page.goto` raising, which
`analyze_page` catches and turns into its error dict).  After a failed
navigation the page holds no document, so the nav-anchor query yields `[]`. -/
structure PageEnv where
  fetch : String → Option FetchResult
  navHrefs : String → List (Option String)
  dynamicChat : String → Bool
  netRequests : String → List String

/-- Output shape of `_analyze_network_requests` (its `ota_services` list is
declared but never filled by the source). -/
structure NetworkSignals where
  chatbotServices : List String
  bookingServices : List String
  otaServices : List String
  deriving DecidableEq, Repr

/-- Embedding of `chatbot_domains` of `_analyze_network_requests`. -/
def chatbotDomainKeywords : List String :=
  ["chat", "support", "widget", "messenger", "livechat", "zendesk",
   "intercom", "drift", "crisp", "tidio", "tawk"]

/-- Embedding of `booking_domains` of `_analyze_network_requests`. -/
def bookingDomainKeywords : List String :=
  ["booking", "reserv", "ticket", "payment", "checkout", "stripe",
   "paypal", "square"]

/-- Embedding of `_analyze_network_requests`: classify each resource-timing URL by
substring, appending one `network_<domain>` tag unless the dedup test
(comparing the domain against each recorded item split at its first
underscore) rejects it. -/
def analyzeNetworkRequests (reqs : List String) : NetworkSignals :=
  reqs.foldl
    (fun acc requestUrl =>
      let urlLower := lowerStr requestUrl
      let acc :=
        if chatbotDomainKeywords.any (fun d => strIn d urlLower) then
          let domain := netlocOf requestUrl
          if (acc.chatbotServices.map beforeUnderscore).contains domain
          then acc
          else { acc with chatbotServices := acc.chatbotServices ++ ["network_" ++ domain] }
        else acc
      if bookingDomainKeywords.any (fun d => strIn d urlLower) then
        let domain := netlocOf requestUrl
        if (acc.bookingServices.map beforeUnderscore).contains domain
        then acc
        else { acc with bookingServices := acc.bookingServices ++ ["network_" ++ domain] }
      else acc)
    ⟨[], [], []⟩

/-- Embedding of `analyze_page`: `none` is the error dict (the exception branch).  The
dynamic-element pass is summarised by the one-bit verdict of the environment:
when it fires, `has_chatbot` is set and a `dynamic_chat_widget` tag is
appended; then the network tags are appended and any network chatbot service
also sets `has_chatbot`. -/
def analyzePage (env : PageEnv) (url : String) : Option PageSignals :=
  match env.fetch url with
  | none => none
  | some fr =>
      let analysis := analyzePageContent fr.html fr.text url
      let analysis :=
        if env.dynamicChat url then
          { analysis with hasChatbot := true,
                          chatbotTypes := analysis.chatbotTypes ++ ["dynamic_chat_widget"] }
        else analysis
      let na := analyzeNetworkRequests (env.netRequests url)
      some { analysis with
        chatbotTypes := analysis.chatbotTypes ++ na.chatbotServices,
        bookingTechnology := analysis.bookingTechnology ++ na.bookingServices,
        otaDependencies := analysis.otaDependencies ++ na.otaServices,
        hasChatbot := analysis.hasChatbot || !na.chatbotServices.isEmpty }

/-- The scheme in front of `://`, for the absolute-path case of `urljoin`. -/
def schemeOf (url : String) : String :=
  String.mk (url.toList.takeWhile (fun c => c ≠ ':'))

/-- Embedding of `urllib.parse.urljoin` for the URL shapes the crawler produces: an
absolute URL, an absolute path (`/booking`), the empty string, or a path
relative to the directory of the base. -/
def urljoinApprox (base rel : String) : String :=
  if startsWithStr "http://" rel || startsWithStr "https://" rel then rel
  else if startsWithStr "/" rel then schemeOf base ++ "://" ++ netlocOf base ++ rel
  else if rel = "" then base
  else
    let beforeLastSlash := String.mk (base.toList.reverse.dropWhile (fun c => c ≠ '/')).reverse
    if endsWithStr "://" beforeLastSlash || beforeLastSlash = "" then base ++ "/" ++ rel
    else beforeLastSlash ++ rel

/-- Embedding of `important_pages` of `analyze_website`. -/
def importantPages : List String := ["/booking", "/book", "/tours", "/experiences"]

/-- Python `set.update`: union into an insertion-ordered duplicate-free
list. -/
def setUnion (acc xs : List String) : List String :=
  xs.foldl (fun a x => if a.contains x then a else a ++ [x]) acc

/-- Embedding of `analyze_website`.  Returns the aggregated result **and** the list of
URLs a navigation was attempted for (root first), which makes "no further
pages are attempted" statable.  Faithful control flow: a root fetch error
skips only the aggregation of the root — the guess-page loop still runs, each
erroring sub-page is skipped but still consumes a `pages_checked` slot, and
the function returns normally (the caught error is dropped on return, so the
caller never sees it). -/
def analyzeWebsite (env : PageEnv) (maxPagesPerSite : Nat) (url : String) :
    AnalysisResult × List String :=
  let main := analyzePage env url
  let aggregated : AnalysisResult :=
    match main with
    | some a =>
        { hasChatbot := a.hasChatbot,
          chatbotTypes := setUnion [] a.chatbotTypes,
          bookingTechnology := setUnion [] a.bookingTechnology,
          otaDependencies := setUnion [] a.otaDependencies,
          details := a.details, pagesAnalyzed := 1 }
    | none =>
        { hasChatbot := false, chatbotTypes := [], bookingTechnology := [],
          otaDependencies := [], details := {}, pagesAnalyzed := 0 }
  if maxPagesPerSite > 1 then
    let hrefs := match main with | some _ => env.navHrefs url | none => []
    let fromNav := (hrefs.take 5).filterMap
      (fun h? =>
        match h? with
        | some h =>
            if h ≠ "" then
              let fullUrl := rstripSlash (urljoinApprox url (trimStr h))
              if startsWithStr "http" fullUrl && netlocOf fullUrl == netlocOf url then
                some fullUrl
              else none
            else none
        | none => none)
    let pagesToCheck := fromNav ++ importantPages.map (fun p => rstripSlash (urljoinApprox url p))
    let candidates := pagesToCheck.foldl (fun a x => if a.contains x then a else a ++ [x]) []
    let final := candidates.foldl
      (fun (st : AnalysisResult × List String × Nat) pageUrl =>
        let (res, att, checked) := st
        if checked ≥ maxPagesPerSite then st
        else
          match analyzePage env pageUrl with
          | some pa =>
              ({ res with
                  hasChatbot := res.hasChatbot || pa.hasChatbot,
                  chatbotTypes := setUnion res.chatbotTypes pa.chatbotTypes,
                  bookingTechnology := setUnion res.bookingTechnology pa.bookingTechnology,
                  otaDependencies := setUnion res.otaDependencies pa.otaDependencies,
                  pagesAnalyzed := res.pagesAnalyzed + 1 },
                att ++ [pageUrl], checked + 1)
          | none => (res, att ++ [pageUrl], checked + 1))
      (aggregated, [url], 1)
    (final.1, final.2.1)
  else (aggregated, [url])

/-! ## State store rows and batch processing (`process_batch`, 640-734) -/

/-- Embedding of `analysis_status` column values the source writes. -/
inductive AnalysisStatus where
  | completed
  | failed
  | invalidURL
  deriving DecidableEq, Repr

/-- One row of the tabular state store.  The row keeps the columns the
verified claims speak about; the remaining output columns are further plain
string formatting over the same `AnalysisResult`.  Unset cells (`pd.NA`) are
`none`. -/
structure TargetRow where
  url : Option String
  status : Option AnalysisStatus
  hasChatbotCol : Option String
  prospectCol : Option String
  pagesAnalyzedCol : Option Nat
  deriving DecidableEq, Repr

/-- Embedding of `clean_url`: `None`/`NaN`/empty is rejected; otherwise strip, default
the scheme to `https://`, and drop trailing slashes. -/
def cleanUrl : Option String → Option String
  | none => none
  | some url =>
      if url = "" then none
      else
        let url := trimStr url
        let url :=
          if startsWithStr "http://" url || startsWithStr "https://" url then url
          else "https://" ++ url
        some (rstripSlash url)

/-- What one dispatched `analyze_website` call came back as: normal return
(the success branch of `analyze_with_semaphore`) or a raised exception (its
`except` branch). -/
inductive CrawlOutcome where
  | success (analysis : AnalysisResult)
  | failure (errMsg : String)

/-- The per-row writes of `analyze_with_semaphore`: the success branch fills
the result columns and sets `COMPLETED`; the exception branch records the
truncated error string in `has_chatbot` and sets `FAILED`. -/
def applyOutcome (row : TargetRow) : CrawlOutcome → TargetRow
  | .success analysis =>
      { row with
          hasChatbotCol := some (if analysis.hasChatbot then "Yes" else "No"),
          prospectCol := some (generateProspectEvaluation analysis),
          pagesAnalyzedCol := some analysis.pagesAnalyzed,
          status := some .completed }
  | .failure e =>
      { row with
          hasChatbotCol := some ("Error: " ++ String.mk (e.toList.take 100)),
          status := some .failed }

/-- The invalid-URL branch of `process_batch`: the row is marked
`INVALID_URL` and `has_chatbot` records the literal `Invalid URL`. -/
def invalidMark (row : TargetRow) : TargetRow :=
  { row with hasChatbotCol := some "Invalid URL", status := some .invalidURL }

/-- A crawl task is created for row `i` exactly when its URL survives
`clean_url` (the `if clean_url:` test of the task-building loop). -/
def dispatchable (df : List TargetRow) (i : Nat) : Bool :=
  match df.get? i with
  | some row => (cleanUrl row.url).isSome
  | none => false

/-- Embedding of `process_batch` over a batch of row indices: a row whose URL does not
clean up is marked `INVALID_URL` and no task is created for it; every other
row gets exactly one crawl task, whose outcome the oracle supplies.  Returns
the updated table and the indices a crawl was dispatched for, in batch
order.  (The tasks run concurrently under the semaphore, but each task
writes only its own row, so the net table update is this per-row pass.) -/
def processBatch (oracle : Nat → CrawlOutcome) (df : List TargetRow) :
    List Nat → List TargetRow × List Nat
  | [] => (df, [])
  | index :: rest =>
      match df.get? index with
      | none => processBatch oracle df rest
      | some row =>
          match cleanUrl row.url with
          | none => processBatch oracle (df.set index (invalidMark row)) rest
          | some _ =>
              let step := processBatch oracle (df.set index (applyOutcome row (oracle index))) rest
              (step.1, index :: step.2)

/-! ## Phase scheduler (`continuous_process`, 736-848) -/

/-- One settings dictionary (`aggressive/conservative/patient_settings`). -/
structure PhaseConfig where
  concurrency : Nat
  batchSize : Nat
  timeout : Nat
  delayBetweenBatches : Nat
  maxPagesPerSite : Nat
  deriving DecidableEq, Repr

/-- Embedding of `aggressive_settings` for ≥ 32 GB RAM. -/
def aggressiveSettingsHigh : PhaseConfig := ⟨45, 80, 45000, 30, 3⟩

/-- Embedding of `conservative_settings` for ≥ 32 GB RAM. -/
def conservativeSettingsHigh : PhaseConfig := ⟨20, 40, 75000, 60, 5⟩

/-- Embedding of `aggressive_settings` for < 32 GB RAM. -/
def aggressiveSettingsLow : PhaseConfig := ⟨20, 30, 45000, 45, 3⟩

/-- Embedding of `conservative_settings` for < 32 GB RAM. -/
def conservativeSettingsLow : PhaseConfig := ⟨10, 20, 75000, 90, 5⟩

/-- Embedding of `patient_settings`. -/
def patientSettings : PhaseConfig := ⟨5, 10, 120000, 120, 7⟩

/-- The unprocessed pool: indices whose analysis_status cell is unset, optionally
intersected with the retry pool of a phase (the df.index.isin conjunct of
phases 2 and 3). -/
def pendingIdx (df : List TargetRow) (restrict : Option (List Nat)) : List Nat :=
  (List.range df.length).filter
    (fun i =>
      (match df.get? i with | some r => r.status.isNone | none => false) &&
      (match restrict with | none => true | some pool => pool.contains i))

/-- The indices whose analysis_status cell equals FAILED. -/
def failedIdx (df : List TargetRow) : List Nat :=
  (List.range df.length).filter
    (fun i => match df.get? i with | some r => r.status == some .failed | none => false)

/-- The phase-boundary reset (df.loc over failed_companies writing pd.NA into
analysis_status): exactly the rows currently `FAILED` go back to unset. -/
def resetFailed (df : List TargetRow) : List TargetRow :=
  df.map (fun r => if r.status == some .failed then { r with status := none } else r)

/-- The batch loop of one phase: while the recomputed unprocessed pool is
non-empty, process its first `batchSize` rows.  Every processed row leaves
the pool, so `df.length` rounds of fuel always suffice (proved below). -/
def runPhaseAux (oracle : Nat → CrawlOutcome) (batchSize : Nat)
    (restrict : Option (List Nat)) :
    Nat → List TargetRow × List Nat → List TargetRow × List Nat
  | 0, st => st
  | fuel + 1, (df, log) =>
      let pool := pendingIdx df restrict
      if pool.isEmpty then (df, log)
      else
        let step := processBatch oracle df (pool.take batchSize)
        runPhaseAux oracle batchSize restrict fuel (step.1, log ++ step.2)

/-- One phase of `continuous_process`. -/
def runPhase (oracle : Nat → CrawlOutcome) (batchSize : Nat)
    (restrict : Option (List Nat)) (df : List TargetRow) :
    List TargetRow × List Nat :=
  runPhaseAux oracle batchSize restrict df.length (df, [])

/-- Embedding of `analysis_columns` of `continuous_process`. -/
def analysisColumns : List String :=
  ["has_chatbot", "chatbot_analysis", "chatbot_types_detailed",
   "booking_technology_summary", "booking_technology_detailed",
   "ota_analysis", "ota_dependencies_detailed",
   "prospect_evaluation", "pages_analyzed",
   "has_contact_form", "has_online_booking", "external_booking_links",
   "analysis_confidence", "last_analyzed", "analysis_status"]

/-- The column-initialisation loop: `if col not in df.columns: df[col] =
pd.NA` — each missing result column is appended, present ones untouched. -/
def addMissingColumns (existing : List String) : List String :=
  analysisColumns.foldl
    (fun cols col => if cols.contains col then cols else cols ++ [col]) existing

/-- One phase boundary plus retry phase: the rows now `FAILED` are
collected; when there are any, their status is reset to unset and they
become the restricted pool for a phase run under the next settings (phases
2 and 3 of `continuous_process`). -/
def retryStep (oracle : Nat → CrawlOutcome) (batchSize : Nat)
    (df : List TargetRow) : List TargetRow × List Nat :=
  let failed := failedIdx df
  if failed.isEmpty then (df, [])
  else runPhase oracle batchSize (some failed) (resetFailed df)

/-- Embedding of `continuous_process` after loading: phase 1 (Aggressive) drains all rows
with unset status; at each boundary the rows then `FAILED` are collected,
reset to unset, and become the restricted pool of the next phase; phases 2
(ConservativeRetry) and 3 (PatientRetry) run only when that pool is
non-empty.  Each oracle gives the crawl outcomes under the settings of
that phase.  Returns the final table and the concatenated dispatch log. -/
def continuousProcess (o1 o2 o3 : Nat → CrawlOutcome)
    (cfgAggressive cfgConservative cfgPatient : PhaseConfig)
    (df0 : List TargetRow) : List TargetRow × List Nat :=
  let phase1 := runPhase o1 cfgAggressive.batchSize none df0
  let phase2 := retryStep o2 cfgConservative.batchSize phase1.1
  let phase3 := retryStep o3 cfgPatient.batchSize phase2.1
  (phase3.1, phase1.2 ++ phase2.2 ++ phase3.2)

/-! ## Concurrency controller model (`process_batch` 681-729)

`process_batch` wraps every crawl in `async with semaphore:` where
`semaphore = asyncio.Semaphore(concurrency)`, with a `try/except Exception`
inside, so the slot is released on the normal and the exception exit alike.
The event-loop interleaving is modelled as a step relation on the vector of
task states; the `acquire` rule is the documented `asyncio.Semaphore`
contract (it blocks while `concurrency` holders exist), which is library
behavior, not repository code. -/

/-- Lifecycle of one `analyze_with_semaphore` task. -/
inductive TaskPhase where
  | notStarted
  | waiting
  | running
  | finished (ok : Bool)
  deriving DecidableEq, Repr

/-- Number of crawls currently in flight (inside the semaphore). -/
def countRunning (ts : List TaskPhase) : Nat :=
  ts.countP (fun t => match t with | .running => true | _ => false)

/-- One event-loop step: a task starts and awaits the semaphore, acquires a
slot (only while fewer than `c` crawls run), or finishes — successfully or
by raising into the `except` branch — releasing its slot either way. -/
inductive SemStep (c : Nat) : List TaskPhase → List TaskPhase → Prop where
  | start (ts : List TaskPhase) (i : Nat) :
      ts.get? i = some .notStarted → SemStep c ts (ts.set i .waiting)
  | acquire (ts : List TaskPhase) (i : Nat) :
      ts.get? i = some .waiting → countRunning ts < c →
      SemStep c ts (ts.set i .running)
  | finish (ts : List TaskPhase) (i : Nat) (ok : Bool) :
      ts.get? i = some .running → SemStep c ts (ts.set i (.finished ok))

/-- States reachable from `n` freshly created tasks under concurrency `c`. -/
def SemReachable (c n : Nat) (ts : List TaskPhase) : Prop :=
  Relation.ReflTransGen (SemStep c) (List.replicate n .notStarted) ts

/-! ## Concrete fixtures used by the closed theorems below -/

/-- A browser environment in which every navigation times out (and hence no
document, no nav anchors, no network entries). -/
def deadEnv : PageEnv :=
  { fetch := fun _ => none, navHrefs := fun _ => [],
    dynamicChat := fun _ => false, netRequests := fun _ => [] }

/-- A fresh, never-analyzed input row. -/
def examplePendingRow : TargetRow :=
  { url := some "example.com", status := none, hasChatbotCol := none,
    prospectCol := none, pagesAnalyzedCol := none }

/-- The crawl outcome every phase sees when the target site is down:
`analyze_website` returns normally (it swallowed the navigation errors). -/
def deadOracle : Nat → CrawlOutcome :=
  fun _ => .success (analyzeWebsite deadEnv 3 "https://example.com").1

/-- Only the behavioral chatbot tier enabled. -/
def cfgBehChat : TierConfig := ⟨false, true, false, false, false, false⟩

/-- Known-signature and behavioral chatbot tiers enabled. -/
def cfgKnownBehChat : TierConfig := ⟨true, true, false, false, false, false⟩

/-- Page text with three behavioral chat phrases (score 6 ≥ 5) that also
contains the known `intercom` signature. -/
def c4Text : String := "start chat chat with us live chat intercom"

/-- A three-row table: an already-completed row, a failed row and an
invalid-URL row (phase-boundary fixture). -/
def boundaryFixture : List TargetRow :=
  [{ examplePendingRow with status := some .completed },
   { examplePendingRow with status := some .failed },
   { examplePendingRow with url := none, status := some .invalidURL }]

/-- A one-row table whose row is already COMPLETED (resumption fixture). -/
def completedFixture : List TargetRow :=
  [{ examplePendingRow with status := some .completed }]

/-- An oracle under which every crawl raises. -/
def failingOracle : Nat → CrawlOutcome := fun _ => .failure "net::ERR_TIMED_OUT"

/-! # Theorems -/

/-! ## Elementary facts about row updates -/

theorem applyOutcome_url (row : TargetRow) (o : CrawlOutcome) :
    (applyOutcome row o).url = row.url := by
  cases o <;> rfl

theorem applyOutcome_status_isSome (row : TargetRow) (o : CrawlOutcome) :
    (applyOutcome row o).status ≠ none := by
  cases o <;> simp [applyOutcome]

theorem invalidMark_url (row : TargetRow) : (invalidMark row).url = row.url := rfl

theorem invalidMark_status (row : TargetRow) :
    (invalidMark row).status = some .invalidURL := rfl

theorem invalidMark_idem (row : TargetRow) :
    invalidMark (invalidMark row) = invalidMark row := rfl

/-! ## Claim C3: the prospect classifier is total with the stated priority -/

/-- C3: for every `AnalysisResult` the classifier returns the first matching
rule of the fixed priority order — no chatbot AND booking present AND OTA
present gives HIGH-VALUE; no chatbot AND booking present gives GOOD; no
chatbot gives MEDIUM; otherwise NOT A PROSPECT — and over any combination of
the three predicates exactly one of the four tiers is produced. -/
theorem classifier_priority_total (analysis : AnalysisResult) :
    (generateProspectEvaluation analysis =
      if analysis.hasChatbot = false then
        if analysis.bookingTechnology ≠ [] ∨ analysis.details.hasOnlineBooking = true then
          if analysis.otaDependencies ≠ [] then "HIGH-VALUE PROSPECT" else "GOOD PROSPECT"
        else "MEDIUM PROSPECT"
      else "NOT A PROSPECT") ∧
    ["HIGH-VALUE PROSPECT", "GOOD PROSPECT", "MEDIUM PROSPECT",
      "NOT A PROSPECT"].count (generateProspectEvaluation analysis) = 1 := by
  obtain ⟨hc, ct, bt, od, det, pa⟩ := analysis
  cases hc <;> cases hob : det.hasOnlineBooking <;> cases bt <;> cases od <;>
    simp_all [generateProspectEvaluation]

/-! ## Claim C7: the signal extractor is a pure function of its inputs -/

/-- C7: the page-content signal extractor is deterministic — two calls on
identical `(renderedHtml, visibleText, pageUrl)` inputs return identical
`PageSignals` (it is a total function of exactly those three inputs). -/
theorem extractor_pure_deterministic (h1 t1 u1 h2 t2 u2 : String)
    (hh : h1 = h2) (ht : t1 = t2) (hu : u1 = u2) :
    analyzePageContent h1 t1 u1 = analyzePageContent h2 t2 u2 := by
  subst hh; subst ht; subst hu; rfl

/-- Witness for C7 at a concrete page. -/
theorem extractor_pure_deterministic_witness :
    analyzePageContent "zendesk page" "hello" "https://x.com" =
      analyzePageContent "zendesk page" "hello" "https://x.com" :=
  extractor_pure_deterministic _ _ _ _ _ _ rfl rfl rfl

/-! ## Claim C1: what actually happens when the root fetch fails -/

/-- C1 (code bug): with every navigation timing out, `analyze_website`
swallows the root error, still attempts the conventional guess pages
(`/booking`, `/book` — `maxPagesPerSite = 3` caps it at two), returns a
zero-signal result, and the scheduler therefore marks the row COMPLETED
with `has_chatbot = No` and tier MEDIUM PROSPECT — not FAILED as the spec
requires; the row never enters any retry pool. -/
theorem root_failure_row_completed :
    (analyzeWebsite deadEnv 3 "https://example.com").1.pagesAnalyzed = 0 ∧
    (analyzeWebsite deadEnv 3 "https://example.com").1.chatbotTypes = [] ∧
    (analyzeWebsite deadEnv 3 "https://example.com").1.bookingTechnology = [] ∧
    (analyzeWebsite deadEnv 3 "https://example.com").1.otaDependencies = [] ∧
    (analyzeWebsite deadEnv 3 "https://example.com").2 =
      ["https://example.com", "https://example.com/booking", "https://example.com/book"] ∧
    (continuousProcess deadOracle deadOracle deadOracle aggressiveSettingsHigh
        conservativeSettingsHigh patientSettings [examplePendingRow]).1 =
      [{ url := some "example.com", status := some .completed,
         hasChatbotCol := some "No", prospectCol := some "MEDIUM PROSPECT",
         pagesAnalyzedCol := some 0 }] := by
  decide

/-! ## Claim C4: tier-enabling monotonicity fails for chatbot tags -/

/-- C4 counterexample: enabling the known-signature chatbot tier on top of
the behavioral tier removes the behavioral evidence tag
`chat_text: (start chat)` that the behavioral tier alone produced, because
the behavioral tier is consulted only when the known tier found nothing. -/
theorem tier_monotonicity_refuted :
    TierConfig.below cfgBehChat cfgKnownBehChat = true ∧
    ("chat_text: " ++ sqs ++ "start chat" ++ sqs) ∈
      (analyzePageContentCfg cfgBehChat "" c4Text "https://example.com").chatbotTypes ∧
    ("chat_text: " ++ sqs ++ "start chat" ++ sqs) ∉
      (analyzePageContentCfg cfgKnownBehChat "" c4Text "https://example.com").chatbotTypes := by
  decide

/-! ## Facts about the known-signature scan folds -/

theorem scan_fold_fst (q : String × List String → Bool)
    (table : List (String × List String)) :
    ∀ acc : Bool × List String,
      (table.foldl
        (fun acc e =>
          if q e then (true, if acc.2.contains e.1 then acc.2 else acc.2 ++ [e.1])
          else acc) acc).1
      = (acc.1 || table.any q) := by
  induction table with
  | nil => intro acc; simp
  | cons e rest ih =>
      intro acc
      rw [List.foldl_cons, List.any_cons]
      cases hm : q e
      · rw [if_neg (by simp), ih]
        simp
      · rw [if_pos rfl, ih]
        simp

theorem scan_fold_mem (q : String × List String → Bool)
    (table : List (String × List String)) :
    ∀ (acc : Bool × List String) (x : String),
      x ∈ (table.foldl
        (fun acc e =>
          if q e then (true, if acc.2.contains e.1 then acc.2 else acc.2 ++ [e.1])
          else acc) acc).2 →
      x ∈ acc.2 ∨ x ∈ table.map Prod.fst := by
  induction table with
  | nil => intro acc x h; simp only [List.foldl_nil] at h; exact Or.inl h
  | cons e rest ih =>
      intro acc x h
      rw [List.foldl_cons] at h
      cases hm : q e
      · rw [if_neg (by simp [hm])] at h
        rcases ih acc x h with h1 | h1
        · exact Or.inl h1
        · exact Or.inr (by simp [h1])
      · rw [if_pos hm] at h
        rcases ih _ x h with h1 | h1
        · by_cases hc : acc.2.contains e.1 = true
          · rw [if_pos hc] at h1; exact Or.inl h1
          · rw [if_neg hc] at h1
            rcases List.mem_append.mp h1 with h2 | h2
            · exact Or.inl h2
            · have hx : x = e.1 := by simpa using h2
              exact Or.inr (by simp [hx])
        · exact Or.inr (by simp [h1])

theorem knownChatbotScan_fst (combined : List Char) :
    (knownChatbotScan combined).1 =
      chatbotPatterns.any (fun e => e.2.any (fun p => containsSub combined p.toList)) := by
  have h := scan_fold_fst (fun e => e.2.any (fun p => containsSub combined p.toList))
    chatbotPatterns (false, [])
  simp only [Bool.false_or] at h
  exact h

theorem knownChatbotScan_mem (combined : List Char) (x : String)
    (h : x ∈ (knownChatbotScan combined).2) : x ∈ chatbotPatterns.map Prod.fst := by
  rcases scan_fold_mem (fun e => e.2.any (fun p => containsSub combined p.toList))
    chatbotPatterns (false, []) x h with h1 | h1
  · simp at h1
  · exact h1

/-! ## Claim C10: a known signature silences the behavioral chatbot tier -/

/-- C10: when a known chatbot keyword occurs in the lower-cased combined
HTML+text, the behavioral detector is not consulted: every page-level
chatbot tag is a known provider name, and in particular no tag is a
behavioral evidence string (`chat_text: ...` or `chat_ui_elements ...`).
(The site level appends only `dynamic_chat_widget` and `network_...` tags on
top of these.) -/
theorem known_signature_suppresses_behavioral (html text url : String)
    (hk : chatbotPatterns.any (fun e => e.2.any (fun p =>
        containsSub (combinedOf html text) p.toList)) = true) :
    ∀ s ∈ (analyzePageContent html text url).chatbotTypes,
      s ∈ chatbotPatterns.map Prod.fst ∧
      startsWithStr "chat_text" s = false ∧
      startsWithStr "chat_ui_elements" s = false := by
  intro s hs
  have hfst : (knownChatbotScan (combinedOf html text)).1 = true := by
    rw [knownChatbotScan_fst]; exact hk
  have htys : (analyzePageContent html text url).chatbotTypes =
      (knownChatbotScan (combinedOf html text)).2 := by
    simp [analyzePageContent, analyzePageContentCfg, TierConfig.all, hfst]
  rw [htys] at hs
  have hmem := knownChatbotScan_mem _ s hs
  refine ⟨hmem, ?_⟩
  have hall : ∀ x ∈ chatbotPatterns.map Prod.fst,
      startsWithStr "chat_text" x = false ∧ startsWithStr "chat_ui_elements" x = false := by
    decide
  exact hall s hmem

/-- Witness for C10 at a page containing the `zendesk` signature (whose
only page-level tag is the provider name `zendesk`). -/
theorem known_signature_suppresses_behavioral_witness :
    "zendesk" ∈ chatbotPatterns.map Prod.fst ∧
    startsWithStr "chat_text" "zendesk" = false ∧
    startsWithStr "chat_ui_elements" "zendesk" = false :=
  known_signature_suppresses_behavioral "zendesk widget"
    "start chat chat with us live chat" "https://x.com" (by decide)
    "zendesk" (by decide)

/-! ## Claim C4 (amended): where tier-enabling monotonicity does hold -/

theorem analyzePageContentCfg_booking (cfg : TierConfig) (html text url : String) :
    (analyzePageContentCfg cfg html text url).bookingTechnology =
      (if cfg.knownBooking then
        knownTierScan bookingPatterns (combinedOf html text)
       else []) ++
      (if cfg.behavioralBooking then detectUnknownBookingSystem html text else []) := by
  simp [analyzePageContentCfg]

theorem analyzePageContentCfg_ota (cfg : TierConfig) (html text url : String) :
    (analyzePageContentCfg cfg html text url).otaDependencies =
      (if cfg.knownOta then
        knownTierScan otaPatterns (combinedOf html text)
       else []) ++
      (if cfg.behavioralOta then detectUnknownOtaIntegration html text url else []) := by
  simp [analyzePageContentCfg]

theorem analyzePageContentCfg_hasChatbot (cfg : TierConfig) (html text url : String) :
    (analyzePageContentCfg cfg html text url).hasChatbot =
      ((cfg.knownChatbot &&
          (knownChatbotScan (combinedOf html text)).1) ||
        (cfg.behavioralChatbot &&
          !(cfg.knownChatbot &&
            (knownChatbotScan (combinedOf html text)).1) &&
          (detectUnknownChatbot html text).likelyChatbot)) := by
  cases hkc : cfg.knownChatbot <;> cases hbc : cfg.behavioralChatbot <;>
    simp only [analyzePageContentCfg, hkc, hbc] <;>
    cases hK : (knownChatbotScan (combinedOf html text)).1 <;>
    cases hL : (detectUnknownChatbot html text).likelyChatbot <;>
    simp [hK, hL]

theorem mem_ite_list {c : Bool} {l : List String} {s : String}
    (h : s ∈ (if c then l else [])) : c = true ∧ s ∈ l := by
  cases c <;> simp_all

/-- C4 amended: enabling additional tiers is monotone for the `hasChatbot`
flag and for the booking and OTA tag sets (each of their tiers only appends
tags, independently of the other tiers).  It is **not** monotone for
`chatbotTypes`: as `tier_monotonicity_refuted` shows, the behavioral chatbot
tier is suppressed as soon as the known-signature tier fires, so its
evidence tags can disappear. -/
theorem tier_monotonicity_amended (cfg cfg' : TierConfig) (html text url : String)
    (h : TierConfig.below cfg cfg' = true) :
    ((analyzePageContentCfg cfg html text url).hasChatbot = true →
      (analyzePageContentCfg cfg' html text url).hasChatbot = true) ∧
    (∀ s ∈ (analyzePageContentCfg cfg html text url).bookingTechnology,
      s ∈ (analyzePageContentCfg cfg' html text url).bookingTechnology) ∧
    (∀ s ∈ (analyzePageContentCfg cfg html text url).otaDependencies,
      s ∈ (analyzePageContentCfg cfg' html text url).otaDependencies) := by
  obtain ⟨k1, b1, k2, b2, k3, b3⟩ := cfg
  obtain ⟨k1', b1', k2', b2', k3', b3'⟩ := cfg'
  simp only [TierConfig.below, Bool.and_eq_true, Bool.or_eq_true,
    Bool.not_eq_true'] at h
  obtain ⟨⟨⟨⟨⟨h1, h2⟩, h3⟩, h4⟩, h5⟩, h6⟩ := h
  refine ⟨?_, ?_, ?_⟩
  · rw [analyzePageContentCfg_hasChatbot, analyzePageContentCfg_hasChatbot]
    simp only
    cases k1 <;> cases b1 <;>
      cases hK : (knownChatbotScan (combinedOf html text)).1 <;>
      cases hL : (detectUnknownChatbot html text).likelyChatbot <;>
      simp_all
  · intro s hs
    rw [analyzePageContentCfg_booking] at hs ⊢
    simp only at hs ⊢
    rcases List.mem_append.mp hs with hm | hm
    · obtain ⟨hc, hmm⟩ := mem_ite_list hm
      rcases h3 with h3 | h3
      · simp_all
      · simp only [h3, if_true]
        exact List.mem_append_left _ hmm
    · obtain ⟨hc, hmm⟩ := mem_ite_list hm
      rcases h4 with h4 | h4
      · simp_all
      · simp only [h4, if_true]
        exact List.mem_append_right _ hmm
  · intro s hs
    rw [analyzePageContentCfg_ota] at hs ⊢
    simp only at hs ⊢
    rcases List.mem_append.mp hs with hm | hm
    · obtain ⟨hc, hmm⟩ := mem_ite_list hm
      rcases h5 with h5 | h5
      · simp_all
      · simp only [h5, if_true]
        exact List.mem_append_left _ hmm
    · obtain ⟨hc, hmm⟩ := mem_ite_list hm
      rcases h6 with h6 | h6
      · simp_all
      · simp only [h6, if_true]
        exact List.mem_append_right _ hmm

/-- Witness for the amended C4 at the counterexample configurations. -/
theorem tier_monotonicity_amended_witness :
    ((analyzePageContentCfg cfgBehChat "" c4Text "https://example.com").hasChatbot = true →
      (analyzePageContentCfg cfgKnownBehChat "" c4Text "https://example.com").hasChatbot = true) ∧
    (∀ s ∈ (analyzePageContentCfg cfgBehChat "" c4Text "https://example.com").bookingTechnology,
      s ∈ (analyzePageContentCfg cfgKnownBehChat "" c4Text "https://example.com").bookingTechnology) ∧
    (∀ s ∈ (analyzePageContentCfg cfgBehChat "" c4Text "https://example.com").otaDependencies,
      s ∈ (analyzePageContentCfg cfgKnownBehChat "" c4Text "https://example.com").otaDependencies) :=
  tier_monotonicity_amended cfgBehChat cfgKnownBehChat "" c4Text "https://example.com"
    (by decide)

/-! ## Claim C2: the phase boundary resets exactly the Failed rows -/

/-- C2: at a phase boundary exactly the rows whose status is FAILED are
reset to the unset (pending) status and — given the phase just drained its
pool, so no row is still pending — the resulting pending pool is exactly
the set of previously-FAILED rows; a COMPLETED or INVALID_URL row is never
changed by the reset. -/
theorem phase_boundary_reset (df : List TargetRow) (hnp : pendingIdx df none = []) :
    (∀ i r, df.get? i = some r →
      (resetFailed df).get? i =
        some (if r.status == some .failed then { r with status := none } else r)) ∧
    pendingIdx (resetFailed df) none = failedIdx df := by
  have hget : ∀ i r, df.get? i = some r →
      (resetFailed df).get? i =
        some (if r.status == some .failed then { r with status := none } else r) := by
    intro i r h
    rw [List.get?_eq_getElem?] at h ⊢
    simp [resetFailed, List.getElem?_map, h]
  refine ⟨hget, ?_⟩
  have hlen : (resetFailed df).length = df.length := by simp [resetFailed]
  simp only [pendingIdx, failedIdx, hlen]
  apply List.filter_congr
  intro i hi
  rw [List.mem_range] at hi
  obtain ⟨r, hr⟩ : ∃ r, df.get? i = some r := by
    cases h : df.get? i with
    | none => exact absurd (List.get?_eq_none.mp h) (by omega)
    | some r => exact ⟨r, rfl⟩
  have hro := hget i r hr
  rw [hro, hr]
  have hnotpend : r.status.isNone = false := by
    have h2 := List.filter_eq_nil_iff.mp hnp i (List.mem_range.mpr hi)
    rw [hr] at h2
    cases ho : r.status with
    | none => simp [ho] at h2
    | some s => simp
  cases hs : r.status == some AnalysisStatus.failed <;> simp [hs, hnotpend]

/-- Witness for C2 on the three-row boundary fixture. -/
theorem phase_boundary_reset_witness :
    pendingIdx (resetFailed boundaryFixture) none = failedIdx boundaryFixture :=
  (phase_boundary_reset boundaryFixture (by decide)).2

/-! ## Batch-processing lemmas -/

theorem processBatch_length (oracle : Nat → CrawlOutcome) (batch : List Nat) :
    ∀ df : List TargetRow, (processBatch oracle df batch).1.length = df.length := by
  induction batch with
  | nil => intro df; rfl
  | cons index rest ih =>
      intro df
      simp only [processBatch]
      split
      · exact ih df
      · next row hg =>
          split
          · rw [ih, List.length_set]
          · next u hc =>
              show (processBatch oracle (df.set index (applyOutcome row (oracle index)))
                rest).1.length = df.length
              rw [ih, List.length_set]

theorem processBatch_get_of_notMem (oracle : Nat → CrawlOutcome) (batch : List Nat) :
    ∀ (df : List TargetRow) (i : Nat), i ∉ batch →
      (processBatch oracle df batch).1.get? i = df.get? i := by
  induction batch with
  | nil => intro df i _; rfl
  | cons index rest ih =>
      intro df i hi
      have hne : index ≠ i := by rintro rfl; exact hi (List.mem_cons_self _ _)
      have hrest : i ∉ rest := fun h => hi (List.mem_cons_of_mem _ h)
      simp only [processBatch]
      split
      · exact ih df i hrest
      · next row hg =>
          split
          · rw [ih _ _ hrest, List.get?_set_ne _ _ hne]
          · next u hc =>
              show (processBatch oracle (df.set index (applyOutcome row (oracle index)))
                rest).1.get? i = df.get? i
              rw [ih _ _ hrest, List.get?_set_ne _ _ hne]

theorem processBatch_status_of_mem (oracle : Nat → CrawlOutcome) (batch : List Nat) :
    ∀ (df : List TargetRow) (i : Nat), i ∈ batch → i < df.length →
      ∃ r, (processBatch oracle df batch).1.get? i = some r ∧ r.status ≠ none := by
  induction batch with
  | nil => intro df i hi _; exact absurd hi (List.not_mem_nil i)
  | cons index rest ih =>
      intro df i hi hlen
      by_cases hir : i ∈ rest
      · simp only [processBatch]
        split
        · exact ih df i hir hlen
        · next row hg =>
            split
            · exact ih (df.set index (invalidMark row)) i hir
                (by rw [List.length_set]; exact hlen)
            · next u hc =>
                show ∃ r, (processBatch oracle
                    (df.set index (applyOutcome row (oracle index))) rest).1.get? i = some r ∧
                  r.status ≠ none
                exact ih (df.set index (applyOutcome row (oracle index))) i hir
                  (by rw [List.length_set]; exact hlen)
      · have hieq : i = index := by
          rcases List.mem_cons.mp hi with h | h
          · exact h
          · exact absurd h hir
        subst hieq
        simp only [processBatch]
        split
        · next hg => exact absurd (List.get?_eq_none.mp hg) (by omega)
        · next row hg =>
            split
            · rw [processBatch_get_of_notMem oracle rest _ _ hir,
                List.get?_set_eq_of_lt _ hlen]
              exact ⟨invalidMark row, rfl, by simp [invalidMark]⟩
            · next u hc =>
                show ∃ r, (processBatch oracle
                    (df.set i (applyOutcome row (oracle i))) rest).1.get? i = some r ∧
                  r.status ≠ none
                rw [processBatch_get_of_notMem oracle rest _ _ hir,
                  List.get?_set_eq_of_lt _ hlen]
                exact ⟨applyOutcome row (oracle i), rfl, applyOutcome_status_isSome row _⟩

theorem dispatchable_set (df : List TargetRow) (index : Nat) (row r2 : TargetRow)
    (hg : df.get? index = some row) (hurl : r2.url = row.url) :
    ∀ j, dispatchable (df.set index r2) j = dispatchable df j := by
  intro j
  by_cases h : index = j
  · subst h
    obtain ⟨hlt, -⟩ := List.get?_eq_some.mp hg
    unfold dispatchable
    rw [List.get?_set_eq_of_lt _ hlt, hg]
    show (cleanUrl r2.url).isSome = (cleanUrl row.url).isSome
    rw [hurl]
  · unfold dispatchable
    rw [List.get?_set_ne _ _ h]

theorem processBatch_log_eq (oracle : Nat → CrawlOutcome) (batch : List Nat) :
    ∀ df : List TargetRow,
      (processBatch oracle df batch).2 = batch.filter (fun i => dispatchable df i) := by
  induction batch with
  | nil => intro df; rfl
  | cons index rest ih =>
      intro df
      simp only [processBatch, List.filter_cons]
      split
      · next hg =>
          have hd : dispatchable df index = false := by
            unfold dispatchable; rw [hg]
          rw [ih df, hd]
          simp
      · next row hg =>
          split
          · next hc =>
              have hd : dispatchable df index = false := by
                unfold dispatchable
                rw [hg]
                show (cleanUrl row.url).isSome = false
                rw [hc]
                rfl
              rw [ih (df.set index (invalidMark row)),
                List.filter_congr
                  (fun j _ => dispatchable_set df index row _ hg (invalidMark_url row) j),
                hd]
              simp
          · next u hc =>
              have hd : dispatchable df index = true := by
                unfold dispatchable
                rw [hg]
                show (cleanUrl row.url).isSome = true
                rw [hc]
                rfl
              show index :: (processBatch oracle
                  (df.set index (applyOutcome row (oracle index))) rest).2 = _
              rw [ih (df.set index (applyOutcome row (oracle index))),
                List.filter_congr
                  (fun j _ => dispatchable_set df index row _ hg (applyOutcome_url row _) j),
                hd]
              simp

/-! ## Pool lemmas -/

theorem pendingIdx_length_le (df : List TargetRow) (restrict : Option (List Nat)) :
    (pendingIdx df restrict).length ≤ df.length := by
  have h := List.length_filter_le
    (fun i =>
      (match df.get? i with | some r => r.status.isNone | none => false) &&
      (match restrict with | none => true | some pool => pool.contains i))
    (List.range df.length)
  simpa [pendingIdx] using h

theorem mem_pendingIdx (df : List TargetRow) (restrict : Option (List Nat)) (i : Nat) :
    i ∈ pendingIdx df restrict ↔
      i < df.length ∧
      (match df.get? i with | some r => r.status.isNone | none => false) = true ∧
      (match restrict with | none => true | some pool => pool.contains i) = true := by
  simp [pendingIdx, List.mem_filter, List.mem_range, and_assoc]

theorem length_filter_lt {α : Type} (p : α → Bool) (l : List α) (a : α)
    (ha : a ∈ l) (hpa : p a = false) : (l.filter p).length < l.length := by
  induction l with
  | nil => cases ha
  | cons b t ih =>
      rcases List.mem_cons.mp ha with rfl | hat
      · have := List.length_filter_le p t
        simp [List.filter_cons, hpa]
        omega
      · rw [List.filter_cons]
        cases hp : p b
        · have := List.length_filter_le p t
          simp
          omega
        · have := ih hat
          simp
          omega

theorem pendingIdx_processBatch (oracle : Nat → CrawlOutcome) (df : List TargetRow)
    (restrict : Option (List Nat)) (batch : List Nat) :
    pendingIdx (processBatch oracle df batch).1 restrict =
      (pendingIdx df restrict).filter (fun i => !(batch.contains i)) := by
  have hlen := processBatch_length oracle batch df
  simp only [pendingIdx, hlen, List.filter_filter]
  apply List.filter_congr
  intro i hi
  rw [List.mem_range] at hi
  by_cases hib : i ∈ batch
  · obtain ⟨r, hr, hst⟩ := processBatch_status_of_mem oracle batch df i hib hi
    rw [List.get?_eq_getElem?] at hr
    have hisn : r.status.isNone = false := by
      cases ho : r.status
      · exact absurd ho hst
      · simp
    simp [hr, hisn, hib]
  · have hfix := processBatch_get_of_notMem oracle batch df i hib
    simp only [List.get?_eq_getElem?] at hfix
    simp [hfix, hib]

/-! ## Phase-loop lemmas -/

theorem runPhaseAux_no_pending (oracle : Nat → CrawlOutcome) (bs : Nat)
    (restrict : Option (List Nat)) (fuel : Nat) (df : List TargetRow) (log : List Nat)
    (h : pendingIdx df restrict = []) :
    runPhaseAux oracle bs restrict fuel (df, log) = (df, log) := by
  cases fuel with
  | zero => rfl
  | succ fuel => simp [runPhaseAux, h]

theorem runPhaseAux_length (oracle : Nat → CrawlOutcome) (bs : Nat)
    (restrict : Option (List Nat)) :
    ∀ (fuel : Nat) (df : List TargetRow) (log : List Nat),
      (runPhaseAux oracle bs restrict fuel (df, log)).1.length = df.length := by
  intro fuel
  induction fuel with
  | zero => intro df log; rfl
  | succ fuel ih =>
      intro df log
      simp only [runPhaseAux]
      by_cases hp : (pendingIdx df restrict).isEmpty
      · rw [if_pos hp]
      · rw [if_neg hp, ih, processBatch_length]

theorem runPhaseAux_pending_empty (oracle : Nat → CrawlOutcome) (bs : Nat)
    (restrict : Option (List Nat)) (hbs : 1 ≤ bs) :
    ∀ (fuel : Nat) (df : List TargetRow) (log : List Nat),
      (pendingIdx df restrict).length ≤ fuel →
      pendingIdx (runPhaseAux oracle bs restrict fuel (df, log)).1 restrict = [] := by
  intro fuel
  induction fuel with
  | zero =>
      intro df log hle
      have h0 : pendingIdx df restrict = [] := List.eq_nil_of_length_eq_zero (by omega)
      simpa [runPhaseAux] using h0
  | succ fuel ih =>
      intro df log hle
      simp only [runPhaseAux]
      by_cases hp : (pendingIdx df restrict).isEmpty
      · rw [if_pos hp]
        exact List.isEmpty_iff.mp hp
      · rw [if_neg hp]
        have hne : pendingIdx df restrict ≠ [] := fun h => hp (List.isEmpty_iff.mpr h)
        obtain ⟨a, t, hpool⟩ : ∃ a t, pendingIdx df restrict = a :: t := by
          cases hq : pendingIdx df restrict with
          | nil => exact absurd hq hne
          | cons a t => exact ⟨a, t, rfl⟩
        apply ih
        rw [pendingIdx_processBatch]
        obtain ⟨m, rfl⟩ : ∃ m, bs = m + 1 := ⟨bs - 1, by omega⟩
        have hamem : a ∈ (pendingIdx df restrict).take (m + 1) := by
          rw [hpool, List.take_succ_cons]
          exact List.mem_cons_self _ _
        have hfalse : (fun i => !(((pendingIdx df restrict).take (m + 1)).contains i)) a
            = false := by simp [hamem]
        have hlt := length_filter_lt
          (fun i => !(((pendingIdx df restrict).take (m + 1)).contains i))
          (pendingIdx df restrict) a (by rw [hpool]; exact List.mem_cons_self _ _) hfalse
        omega

theorem runPhaseAux_notMem_pool (oracle : Nat → CrawlOutcome) (bs : Nat)
    (pool : List Nat) :
    ∀ (fuel : Nat) (df : List TargetRow) (log : List Nat) (i : Nat), i ∉ pool →
      (runPhaseAux oracle bs (some pool) fuel (df, log)).1.get? i = df.get? i ∧
      (i ∉ log → i ∉ (runPhaseAux oracle bs (some pool) fuel (df, log)).2) := by
  intro fuel
  induction fuel with
  | zero => intro df log i _; exact ⟨rfl, fun h => h⟩
  | succ fuel ih =>
      intro df log i hip
      simp only [runPhaseAux]
      by_cases hp : (pendingIdx df (some pool)).isEmpty
      · rw [if_pos hp]; exact ⟨rfl, fun h => h⟩
      · rw [if_neg hp]
        have hbnot : i ∉ (pendingIdx df (some pool)).take bs := by
          intro hmem
          have hmm := List.take_subset _ _ hmem
          have := ((mem_pendingIdx df (some pool) i).mp hmm).2.2
          exact hip (by simpa using this)
        obtain ⟨h1, h2⟩ := ih (processBatch oracle df ((pendingIdx df (some pool)).take bs)).1
          (log ++ (processBatch oracle df ((pendingIdx df (some pool)).take bs)).2) i hip
        refine ⟨?_, ?_⟩
        · rw [h1, processBatch_get_of_notMem oracle _ df i hbnot]
        · intro hilog
          apply h2
          rw [List.mem_append]
          rintro (h | h)
          · exact hilog h
          · rw [processBatch_log_eq] at h
            exact hbnot (List.mem_of_mem_filter h)

/-! ## The invalid-URL row invariant -/

theorem processBatch_invalid_row (oracle : Nat → CrawlOutcome) (r0 : TargetRow)
    (hurl : cleanUrl r0.url = none) (batch : List Nat) :
    ∀ (df : List TargetRow) (i : Nat),
      (df.get? i = some r0 ∨ df.get? i = some (invalidMark r0)) →
      ((processBatch oracle df batch).1.get? i = some r0 ∨
       (processBatch oracle df batch).1.get? i = some (invalidMark r0)) ∧
      i ∉ (processBatch oracle df batch).2 := by
  induction batch with
  | nil => intro df i hdisj; exact ⟨hdisj, List.not_mem_nil i⟩
  | cons index rest ih =>
      intro df i hdisj
      by_cases hii : index = i
      · subst hii
        have hcur : ∃ cur, df.get? index = some cur ∧ cleanUrl cur.url = none ∧
            invalidMark cur = invalidMark r0 := by
          rcases hdisj with h | h
          · exact ⟨r0, h, hurl, rfl⟩
          · exact ⟨invalidMark r0, h, by rw [invalidMark_url]; exact hurl,
              invalidMark_idem r0⟩
        obtain ⟨cur, hg, hcu, hmark⟩ := hcur
        obtain ⟨hlt, -⟩ := List.get?_eq_some.mp hg
        simp only [processBatch]
        split
        · next hnone => rw [hg] at hnone; cases hnone
        · next row hrow =>
            rw [hg] at hrow
            injection hrow with hrow
            subst hrow
            split
            · apply ih
              right
              rw [List.get?_set_eq_of_lt _ hlt, hmark]
            · next u hc => rw [hcu] at hc; cases hc
      · simp only [processBatch]
        have hdisj' : ∀ r2 : TargetRow,
            (df.set index r2).get? i = some r0 ∨
            (df.set index r2).get? i = some (invalidMark r0) := by
          intro r2
          rw [List.get?_set_ne _ _ hii]
          exact hdisj
        split
        · exact ih df i hdisj
        · next row hg =>
            split
            · exact ih (df.set index (invalidMark row)) i (hdisj' _)
            · next u hc =>
                obtain ⟨ha, hb⟩ :=
                  ih (df.set index (applyOutcome row (oracle index))) i (hdisj' _)
                refine ⟨ha, ?_⟩
                intro hmem
                rcases List.mem_cons.mp hmem with h | h
                · exact hii h.symm
                · exact hb h

theorem runPhaseAux_invalid_row (oracle : Nat → CrawlOutcome) (bs : Nat)
    (restrict : Option (List Nat)) (r0 : TargetRow)
    (hurl : cleanUrl r0.url = none) (i : Nat) :
    ∀ (fuel : Nat) (df : List TargetRow) (log : List Nat),
      (df.get? i = some r0 ∨ df.get? i = some (invalidMark r0)) → i ∉ log →
      ((runPhaseAux oracle bs restrict fuel (df, log)).1.get? i = some r0 ∨
       (runPhaseAux oracle bs restrict fuel (df, log)).1.get? i = some (invalidMark r0)) ∧
      i ∉ (runPhaseAux oracle bs restrict fuel (df, log)).2 := by
  intro fuel
  induction fuel with
  | zero => intro df log hdisj hlog; exact ⟨hdisj, hlog⟩
  | succ fuel ih =>
      intro df log hdisj hlog
      simp only [runPhaseAux]
      by_cases hp : (pendingIdx df restrict).isEmpty
      · rw [if_pos hp]; exact ⟨hdisj, hlog⟩
      · rw [if_neg hp]
        obtain ⟨ha, hb⟩ := processBatch_invalid_row oracle r0 hurl
          ((pendingIdx df restrict).take bs) df i hdisj
        apply ih
        · exact ha
        · rw [List.mem_append]
          rintro (h | h)
          · exact hlog h
          · exact hb h

/-! ## Retry-step lemmas -/

theorem failedIdx_not_mem_of (df : List TargetRow) (i : Nat) (r : TargetRow)
    (hget : df.get? i = some r)
    (hnf : (r.status == some AnalysisStatus.failed) = false) : i ∉ failedIdx df := by
  intro hmem
  have h1 := (List.mem_filter.mp hmem).2
  rw [hget] at h1
  have h2 : (r.status == some AnalysisStatus.failed) = true := h1
  rw [hnf] at h2
  cases h2

theorem failedIdx_mem_of (df : List TargetRow) (i : Nat) (r : TargetRow)
    (hlt : i < df.length) (hget : df.get? i = some r)
    (hf : (r.status == some AnalysisStatus.failed) = true) : i ∈ failedIdx df := by
  apply List.mem_filter.mpr
  refine ⟨List.mem_range.mpr hlt, ?_⟩
  rw [hget]
  exact hf

theorem resetFailed_get_of_notFailed (df : List TargetRow) (i : Nat) (r : TargetRow)
    (hget : df.get? i = some r)
    (hnf : (r.status == some AnalysisStatus.failed) = false) :
    (resetFailed df).get? i = some r := by
  have hnf2 : ¬ r.status = some AnalysisStatus.failed := by simpa using hnf
  rw [List.get?_eq_getElem?] at hget ⊢
  simp [resetFailed, List.getElem?_map, hget, hnf2]

theorem retryStep_notFailed (o : Nat → CrawlOutcome) (bs : Nat) (df : List TargetRow)
    (i : Nat) (r : TargetRow) (hget : df.get? i = some r)
    (hnf : (r.status == some AnalysisStatus.failed) = false) :
    (retryStep o bs df).1.get? i = some r ∧ i ∉ (retryStep o bs df).2 := by
  simp only [retryStep]
  by_cases hf : (failedIdx df).isEmpty
  · rw [if_pos hf]
    exact ⟨hget, List.not_mem_nil i⟩
  · rw [if_neg hf]
    have hnm : i ∉ failedIdx df := failedIdx_not_mem_of df i r hget hnf
    obtain ⟨h1, h2⟩ := runPhaseAux_notMem_pool o bs (failedIdx df)
      (resetFailed df).length (resetFailed df) [] i hnm
    exact ⟨h1.trans (resetFailed_get_of_notFailed df i r hget hnf),
      h2 (List.not_mem_nil i)⟩

theorem retryStep_no_pending (o : Nat → CrawlOutcome) (bs : Nat) (df : List TargetRow)
    (hbs : 1 ≤ bs) (hnp : pendingIdx df none = []) :
    pendingIdx (retryStep o bs df).1 none = [] := by
  simp only [retryStep]
  by_cases hf : (failedIdx df).isEmpty
  · rw [if_pos hf]; exact hnp
  · rw [if_neg hf]
    have hlen : (runPhase o bs (some (failedIdx df)) (resetFailed df)).1.length
        = df.length := by
      have ha := runPhaseAux_length o bs (some (failedIdx df))
        (resetFailed df).length (resetFailed df) []
      have hb : (resetFailed df).length = df.length := by simp [resetFailed]
      exact ha.trans hb
    apply List.filter_eq_nil_iff.mpr
    intro i hi
    rw [List.mem_range, hlen] at hi
    by_cases him : i ∈ failedIdx df
    · intro hpred
      have hdrain : pendingIdx
          (runPhase o bs (some (failedIdx df)) (resetFailed df)).1
          (some (failedIdx df)) = [] :=
        runPhaseAux_pending_empty o bs (some (failedIdx df)) hbs
          (resetFailed df).length (resetFailed df) [] (pendingIdx_length_le _ _)
      have hmem : i ∈ pendingIdx
          (runPhase o bs (some (failedIdx df)) (resetFailed df)).1
          (some (failedIdx df)) := by
        rw [mem_pendingIdx]
        refine ⟨by rw [hlen]; exact hi, ?_, by simpa using him⟩
        have := (Bool.and_eq_true _ _).mp hpred
        exact this.1
      rw [hdrain] at hmem
      exact absurd hmem (List.not_mem_nil i)
    · intro hpred
      have h1 := (runPhaseAux_notMem_pool o bs (failedIdx df)
        (resetFailed df).length (resetFailed df) [] i him).1
      cases hg : df.get? i with
      | none =>
          have := List.get?_eq_none.mp hg
          omega
      | some r =>
          have hnf : (r.status == some AnalysisStatus.failed) = false := by
            cases hb : (r.status == some AnalysisStatus.failed)
            · rfl
            · exact absurd (failedIdx_mem_of df i r hi hg hb) him
          have hfin : (runPhase o bs (some (failedIdx df)) (resetFailed df)).1.get? i
              = some r := h1.trans (resetFailed_get_of_notFailed df i r hg hnf)
          have hrstat : r.status.isNone = false := by
            cases ho : r.status with
            | none =>
                exfalso
                apply List.filter_eq_nil_iff.mp hnp i (List.mem_range.mpr hi)
                rw [hg]
                show (r.status.isNone && true) = true
                rw [ho]
                rfl
            | some s => simp
          rw [hfin] at hpred
          have hpred2 : (r.status.isNone && true) = true := hpred
          rw [hrstat] at hpred2
          cases hpred2

/-! ## Claim C5: the scheduler terminates with only terminal statuses -/

/-- C5: after `continuous_process` finishes (Aggressive, then
ConservativeRetry, then PatientRetry, which is terminal — the run performs
nothing after it), every row carries a set status, i.e. one of COMPLETED,
FAILED or INVALID_URL; no row is left pending/unset, and a row still FAILED
after PatientRetry simply stays FAILED in the returned table. -/
theorem scheduler_terminal_statuses (o1 o2 o3 : Nat → CrawlOutcome)
    (cfgA cfgC cfgP : PhaseConfig) (df0 : List TargetRow)
    (h1 : 1 ≤ cfgA.batchSize) (h2 : 1 ≤ cfgC.batchSize) (h3 : 1 ≤ cfgP.batchSize) :
    ∀ r ∈ (continuousProcess o1 o2 o3 cfgA cfgC cfgP df0).1, r.status ≠ none := by
  intro r hr hnone
  have hp1 : pendingIdx (runPhase o1 cfgA.batchSize none df0).1 none = [] :=
    runPhaseAux_pending_empty o1 cfgA.batchSize none h1 df0.length df0 []
      (pendingIdx_length_le df0 none)
  have hp2 := retryStep_no_pending o2 cfgC.batchSize _ h2 hp1
  have hp3 := retryStep_no_pending o3 cfgP.batchSize _ h3 hp2
  have hfin : (continuousProcess o1 o2 o3 cfgA cfgC cfgP df0).1 =
      (retryStep o3 cfgP.batchSize (retryStep o2 cfgC.batchSize
        (runPhase o1 cfgA.batchSize none df0).1).1).1 := rfl
  rw [hfin] at hr
  obtain ⟨i, hi⟩ := List.mem_iff_get?.mp hr
  obtain ⟨hlt, -⟩ := List.get?_eq_some.mp hi
  have hmem : i ∈ pendingIdx (retryStep o3 cfgP.batchSize (retryStep o2 cfgC.batchSize
      (runPhase o1 cfgA.batchSize none df0).1).1).1 none := by
    rw [mem_pendingIdx]
    refine ⟨hlt, ?_, rfl⟩
    rw [hi]
    show r.status.isNone = true
    rw [hnone]
    rfl
  rw [hp3] at hmem
  exact absurd hmem (List.not_mem_nil i)

/-- Witness for C5: the row a persistently raising crawl leaves behind (it
ends FAILED with the truncated error recorded) has a set status. -/
theorem scheduler_terminal_statuses_witness :
    TargetRow.status
      { url := some "example.com", status := some AnalysisStatus.failed,
        hasChatbotCol := some "Error: net::ERR_TIMED_OUT",
        prospectCol := none, pagesAnalyzedCol := none } ≠ none :=
  scheduler_terminal_statuses failingOracle failingOracle failingOracle
    aggressiveSettingsHigh conservativeSettingsHigh patientSettings
    [examplePendingRow] (by decide) (by decide) (by decide)
    { url := some "example.com", status := some AnalysisStatus.failed,
      hasChatbotCol := some "Error: net::ERR_TIMED_OUT",
      prospectCol := none, pagesAnalyzedCol := none }
    (by decide)

/-! ## Claim C6: resuming over an all-Completed table is a no-op -/

theorem addMissing_fold (cols0 : List String) :
    ∀ cols : List String, (∀ c ∈ cols0, cols.contains c = true) →
      cols0.foldl (fun cols col => if cols.contains col then cols else cols ++ [col])
        cols = cols := by
  induction cols0 with
  | nil => intro cols _; rfl
  | cons c rest ih =>
      intro cols hall
      rw [List.foldl_cons, if_pos (hall c (List.mem_cons_self _ _))]
      exact ih cols (fun d hd => hall d (List.mem_cons_of_mem _ hd))

/-- C6: re-running the pipeline over a table in which every row is already
COMPLETED dispatches zero crawls and returns the table unchanged (the
unprocessed pool — rows with unset status — is empty, and no phase runs);
and the column-initialisation step adds result columns only when absent, so
when all are present the column list is unchanged. -/
theorem resume_idempotent (o1 o2 o3 : Nat → CrawlOutcome)
    (cfgA cfgC cfgP : PhaseConfig) (df0 : List TargetRow) (cols : List String)
    (hall : ∀ r ∈ df0, r.status = some AnalysisStatus.completed)
    (hcols : ∀ c ∈ analysisColumns, cols.contains c = true) :
    continuousProcess o1 o2 o3 cfgA cfgC cfgP df0 = (df0, []) ∧
    addMissingColumns cols = cols := by
  have hnp : pendingIdx df0 none = [] := by
    apply List.filter_eq_nil_iff.mpr
    intro i hi
    cases hg : df0.get? i with
    | none => simp
    | some r =>
        have hr := hall r (List.get?_mem hg)
        show ¬ (r.status.isNone && true) = true
        rw [hr]
        simp
  have hnf : failedIdx df0 = [] := by
    apply List.filter_eq_nil_iff.mpr
    intro i hi
    cases hg : df0.get? i with
    | none => simp
    | some r =>
        have hr := hall r (List.get?_mem hg)
        show ¬ (r.status == some AnalysisStatus.failed) = true
        rw [hr]
        simp
  constructor
  · have hrp : runPhase o1 cfgA.batchSize none df0 = (df0, []) :=
      runPhaseAux_no_pending o1 cfgA.batchSize none df0.length df0 [] hnp
    have hrs : ∀ (o : Nat → CrawlOutcome) (bs : Nat),
        retryStep o bs df0 = (df0, []) := by
      intro o bs
      simp [retryStep, hnf]
    show ((retryStep o3 cfgP.batchSize (retryStep o2 cfgC.batchSize
        (runPhase o1 cfgA.batchSize none df0).1).1).1,
      (runPhase o1 cfgA.batchSize none df0).2 ++
      (retryStep o2 cfgC.batchSize (runPhase o1 cfgA.batchSize none df0).1).2 ++
      (retryStep o3 cfgP.batchSize (retryStep o2 cfgC.batchSize
        (runPhase o1 cfgA.batchSize none df0).1).1).2) = (df0, [])
    rw [hrp]
    simp only [hrs]
    rfl
  · exact addMissing_fold analysisColumns cols hcols

/-- Witness for C6 on a one-row all-Completed table. -/
theorem resume_idempotent_witness :
    continuousProcess failingOracle failingOracle failingOracle
      aggressiveSettingsHigh conservativeSettingsHigh patientSettings
      completedFixture = (completedFixture, []) ∧
    addMissingColumns analysisColumns = analysisColumns :=
  resume_idempotent failingOracle failingOracle failingOracle
    aggressiveSettingsHigh conservativeSettingsHigh patientSettings
    completedFixture analysisColumns (by decide) (by decide)

/-! ## Claim C8: invalid-URL rows are terminal and never crawled -/

/-- C8: a pending row whose URL is missing or rejected by `clean_url` is
marked INVALID_URL (with the literal `Invalid URL` recorded), no crawl is
ever dispatched for it in any phase, and the classification is terminal —
the row is a non-FAILED row at every phase boundary, so it never enters a
retry pool. -/
theorem invalid_url_terminal (o1 o2 o3 : Nat → CrawlOutcome)
    (cfgA cfgC cfgP : PhaseConfig) (df0 : List TargetRow) (i : Nat) (r0 : TargetRow)
    (hbs : 1 ≤ cfgA.batchSize) (h0 : df0.get? i = some r0)
    (hurl : cleanUrl r0.url = none) (hst : r0.status = none) :
    (continuousProcess o1 o2 o3 cfgA cfgC cfgP df0).1.get? i = some (invalidMark r0) ∧
    i ∉ (continuousProcess o1 o2 o3 cfgA cfgC cfgP df0).2 := by
  obtain ⟨hd1, hl1⟩ := runPhaseAux_invalid_row o1 cfgA.batchSize none r0 hurl i
    df0.length df0 [] (Or.inl h0) (List.not_mem_nil i)
  have hd1b : (runPhase o1 cfgA.batchSize none df0).1.get? i = some r0 ∨
      (runPhase o1 cfgA.batchSize none df0).1.get? i = some (invalidMark r0) := hd1
  have hdrain : pendingIdx (runPhase o1 cfgA.batchSize none df0).1 none = [] :=
    runPhaseAux_pending_empty o1 cfgA.batchSize none hbs df0.length df0 []
      (pendingIdx_length_le df0 none)
  have hi1 : (runPhase o1 cfgA.batchSize none df0).1.get? i = some (invalidMark r0) := by
    rcases hd1b with h | h
    · exfalso
      obtain ⟨hlt, -⟩ := List.get?_eq_some.mp h
      have hmem : i ∈ pendingIdx (runPhase o1 cfgA.batchSize none df0).1 none := by
        rw [mem_pendingIdx]
        refine ⟨hlt, ?_, rfl⟩
        rw [h]
        show r0.status.isNone = true
        rw [hst]
        rfl
      rw [hdrain] at hmem
      exact absurd hmem (List.not_mem_nil i)
    · exact h
  have hnf1 : ((invalidMark r0).status == some AnalysisStatus.failed) = false := by
    rw [invalidMark_status]
    rfl
  obtain ⟨hi2, hl2⟩ := retryStep_notFailed o2 cfgC.batchSize _ i _ hi1 hnf1
  obtain ⟨hi3, hl3⟩ := retryStep_notFailed o3 cfgP.batchSize _ i _ hi2 hnf1
  refine ⟨hi3, ?_⟩
  have hl1b : i ∉ (runPhase o1 cfgA.batchSize none df0).2 := hl1
  show i ∉ (runPhase o1 cfgA.batchSize none df0).2 ++
    (retryStep o2 cfgC.batchSize (runPhase o1 cfgA.batchSize none df0).1).2 ++
    (retryStep o3 cfgP.batchSize (retryStep o2 cfgC.batchSize
      (runPhase o1 cfgA.batchSize none df0).1).1).2
  intro hmem
  rcases List.mem_append.mp hmem with hm | hm
  · rcases List.mem_append.mp hm with hm2 | hm2
    · exact hl1b hm2
    · exact hl2 hm2
  · exact hl3 hm

/-- Witness for C8 on a one-row table with a missing URL. -/
theorem invalid_url_terminal_witness :
    (continuousProcess failingOracle failingOracle failingOracle
        aggressiveSettingsHigh conservativeSettingsHigh patientSettings
        [{ examplePendingRow with url := none }]).1.get? 0 =
      some (invalidMark { examplePendingRow with url := none }) ∧
    0 ∉ (continuousProcess failingOracle failingOracle failingOracle
        aggressiveSettingsHigh conservativeSettingsHigh patientSettings
        [{ examplePendingRow with url := none }]).2 :=
  invalid_url_terminal failingOracle failingOracle failingOracle
    aggressiveSettingsHigh conservativeSettingsHigh patientSettings
    [{ examplePendingRow with url := none }] 0
    { examplePendingRow with url := none } (by decide) rfl rfl rfl

/-! ## Claim C9: one crawl per valid row, at most `concurrency` in flight -/

theorem countRunning_set (ts : List TaskPhase) :
    ∀ (i : Nat) (u v : TaskPhase), ts.get? i = some u →
      countRunning (ts.set i v) + (if u = .running then 1 else 0)
        = countRunning ts + (if v = .running then 1 else 0) := by
  induction ts with
  | nil => intro i u v h; cases h
  | cons a t ih =>
      intro i u v h
      cases i with
      | zero =>
          injection h with h
          subst h
          cases a <;> cases v <;>
            simp [countRunning, List.countP_cons]
      | succ n =>
          have := ih n u v h
          cases hu : u <;> cases hv : v <;>
            simp_all [countRunning, List.countP_cons] <;> omega

theorem countRunning_replicate (n : Nat) :
    countRunning (List.replicate n TaskPhase.notStarted) = 0 := by
  induction n with
  | zero => rfl
  | succ n ih =>
      rw [List.replicate_succ]
      simp only [countRunning, List.countP_cons] at ih ⊢
      simp [ih]

theorem semStep_bound (c : Nat) (ts ts2 : List TaskPhase) (hstep : SemStep c ts ts2)
    (hle : countRunning ts ≤ c) : countRunning ts2 ≤ c := by
  cases hstep with
  | start i h =>
      have hc := countRunning_set ts i _ TaskPhase.waiting h
      simp at hc
      omega
  | acquire i h hlt =>
      have hc := countRunning_set ts i _ TaskPhase.running h
      simp at hc
      omega
  | finish i ok h =>
      have hc := countRunning_set ts i _ (TaskPhase.finished ok) h
      simp at hc
      omega

theorem semReachable_bound (c n : Nat) (ts : List TaskPhase)
    (h : SemReachable c n ts) : countRunning ts ≤ c := by
  induction h with
  | refl => rw [countRunning_replicate]; omega
  | tail hsteps hstep ih => exact semStep_bound c _ _ hstep ih

/-- C9: (a) one crawl task is dispatched per batch row whose URL survives
`clean_url` — the dispatch log of a batch is exactly the valid rows of that
batch, in order; and (b) in the semaphore-step model of
`async with semaphore` (with the crawl body wrapped in `try/except`, so a
task leaves the running state on success and on exception alike), every
reachable state of a batch of `n` tasks has at most `c = concurrency`
crawls in flight. -/
theorem concurrency_bound_and_dispatch :
    (∀ (oracle : Nat → CrawlOutcome) (df : List TargetRow) (batch : List Nat),
      (processBatch oracle df batch).2 = batch.filter (fun i => dispatchable df i)) ∧
    (∀ (c n : Nat) (ts : List TaskPhase), SemReachable c n ts → countRunning ts ≤ c) :=
  ⟨fun oracle df batch => processBatch_log_eq oracle batch df,
   fun c n ts h => semReachable_bound c n ts h⟩

/-- Witness for C9: a one-row batch dispatches exactly its valid row, and
the state with one running task reached under concurrency 1 respects the
bound. -/
theorem concurrency_bound_and_dispatch_witness :
    (processBatch failingOracle [examplePendingRow] [0]).2 =
      [0].filter (fun i => dispatchable [examplePendingRow] i) ∧
    countRunning [TaskPhase.running] ≤ 1 := by
  constructor
  · exact concurrency_bound_and_dispatch.1 failingOracle [examplePendingRow] [0]
  · apply concurrency_bound_and_dispatch.2 1 1 [TaskPhase.running]
    have s1 : SemStep 1 [TaskPhase.notStarted] [TaskPhase.waiting] :=
      SemStep.start [TaskPhase.notStarted] 0 rfl
    have s2 : SemStep 1 [TaskPhase.waiting] [TaskPhase.running] :=
      SemStep.acquire [TaskPhase.waiting] 0 rfl (by decide)
    exact Relation.ReflTransGen.tail
      (Relation.ReflTransGen.tail Relation.ReflTransGen.refl s1) s2

end TourAnalyzer
